import Mathlib

/-!
# libtorrent piece picker: ordering of blocks and effective piece priority

A shallow embedding of the inline code of `include/libtorrent/piece_picker.hpp`
(`piece_block`, `piece_picker::piece_pos`, `piece_picker::is_ordered`,
`piece_picker::blocks_in_piece`) and of `timestamp_history::add_sample` of
`branches/libtorrent_utp/src/timestamp_history.cpp`.

Conventions of the embedding:

* C++ `int` values are Lean `Int`s.  The only `int` arithmetic in the embedded code is
  `peer_count * 2`, `limit * 2`, `prio - 1` and `index + 1`; signed overflow is undefined
  behaviour in C++, and `priority_int32_exact` below shows that no operation leaves the
  32-bit range when `-2^30 < limit < 2^30`.
* The unsigned bit-fields of `piece_pos` are `Nat`s; `piece_pos.in_range` states the widths.
* `assert` is embedded as a failing result (`none`).
* `boost::uint32_t` values are `Nat`s, with subtraction reduced modulo `2^32`.
* The constant `history_size` (declared in `timestamp_history.hpp`) and the function
  `compare_less_wrap` (defined in `utp_stream.cpp`) are parameters of `add_sample`.
-/

namespace libtorrent

/-! ## piece_block -/

/-- Embedding of `struct piece_block`: a block `block_index` of the piece `piece_index`. -/
structure piece_block where
  piece_index : Int
  block_index : Int
deriving DecidableEq, Repr

namespace piece_block

/-- Embedding of `piece_block::operator<`. -/
def operator_lt (a b : piece_block) : Bool :=
  if a.piece_index < b.piece_index then true
  else if a.piece_index = b.piece_index then decide (a.block_index < b.block_index)
  else false

/-- Embedding of `piece_block::operator==`. -/
def operator_eq (a b : piece_block) : Bool :=
  decide (a.piece_index = b.piece_index) && decide (a.block_index = b.block_index)

/-- Embedding of `piece_block::operator!=`. -/
def operator_ne (a b : piece_block) : Bool :=
  decide (a.piece_index ≠ b.piece_index) || decide (a.block_index ≠ b.block_index)

end piece_block

/-! ## piece_picker::piece_pos -/

/-- Embedding of `struct piece_picker::piece_pos`, a record of four unsigned bit-fields:
`peer_count : 10`, `downloading : 1`, `piece_priority : 2`, `index : 19`. -/
structure piece_pos where
  peer_count : Nat
  downloading : Bool
  piece_priority : Nat
  index : Nat
deriving DecidableEq, Repr

namespace piece_pos

/-- The enumerator `we_have_index = 0x7ffff`: the value of `index` of a piece we have. -/
def we_have_index : Nat := 0x7ffff

/-- The enumerator `filter_priority = 0`: the priority value of a filtered piece. -/
def filter_priority : Nat := 0

/-- The enumerator `max_peer_count = 0x3ff`: the largest peer count the field holds. -/
def max_peer_count : Nat := 0x3ff

/-- The values the bit-fields of a `piece_pos` can hold. -/
def in_range (p : piece_pos) : Prop :=
  p.peer_count ≤ max_peer_count ∧ p.piece_priority ≤ 3 ∧ p.index ≤ we_have_index

instance (p : piece_pos) : Decidable p.in_range := by
  unfold in_range; infer_instance

/-- Embedding of the constructor `piece_pos(int peer_count_, int index_)`; the two
assertions `peer_count_ >= 0` and `index_ >= 0` fail with `none`, and the bit-fields keep
the low bits of the values stored in them. -/
def mk_pos (peer_count_ index_ : Int) : Option piece_pos :=
  if ¬ (peer_count_ ≥ 0) then none
  else if ¬ (index_ ≥ 0) then none
  else some
    { peer_count := peer_count_.toNat % 2 ^ 10
      downloading := false
      piece_priority := 1
      index := index_.toNat % 2 ^ 19 }

/-- Embedding of `piece_pos::have() const`. -/
def have_ (p : piece_pos) : Bool := decide (p.index = we_have_index)

/-- Embedding of `piece_pos::set_have()`; its assertion `have()` holds by `have_set_have`. -/
def set_have (p : piece_pos) : piece_pos := { p with index := we_have_index }

/-- Embedding of `piece_pos::filtered() const`. -/
def filtered (p : piece_pos) : Bool := decide (p.piece_priority = filter_priority)

/-- Embedding of the setter `piece_pos::filtered(bool f)`:
`piece_priority = f ? filter_priority : 0`. -/
def set_filtered (p : piece_pos) (f : Bool) : piece_pos :=
  { p with piece_priority := if f then filter_priority else 0 }

/-- Embedding of `piece_pos::priority(int limit) const`. -/
def priority (p : piece_pos) (limit : Int) : Int :=
  if p.filtered || p.have_ then 0
  else
    -- pieces we are currently downloading are prioritized
    let prio : Int := if p.downloading then (p.peer_count : Int) else (p.peer_count : Int) * 2
    -- if the peer_count is 0 or 1, the priority cannot be higher
    if prio ≤ 1 then prio
    else
      let prio : Int := if prio ≥ limit * 2 then limit * 2 else prio
      -- the different priority levels
      match p.piece_priority with
      | 2 => prio - 1
      | 3 => 1
      | _ => prio

/-- Embedding of `piece_pos::operator!=`. -/
def operator_ne (p q : piece_pos) : Bool :=
  decide (p.index ≠ q.index) || decide (p.peer_count ≠ q.peer_count)

/-- Embedding of `piece_pos::operator==`. -/
def operator_eq (p q : piece_pos) : Bool :=
  decide (p.index = q.index) && decide (p.peer_count = q.peer_count)

/-- Reduction of an integer to the two's-complement 32-bit range. -/
def wrap32 (x : Int) : Int := (x + 2 ^ 31) % 2 ^ 32 - 2 ^ 31

/-- The function `priority` with every arithmetic result reduced to 32 bits. -/
def priority32 (p : piece_pos) (limit : Int) : Int :=
  if p.filtered || p.have_ then 0
  else
    let prio : Int :=
      if p.downloading then (p.peer_count : Int) else wrap32 ((p.peer_count : Int) * 2)
    if prio ≤ 1 then prio
    else
      let prio : Int := if prio ≥ wrap32 (limit * 2) then wrap32 (limit * 2) else prio
      match p.piece_priority with
      | 2 => wrap32 (prio - 1)
      | 3 => 1
      | _ => prio

end piece_pos

/-! ## piece_picker -/

/-- The data members of `class piece_picker` read by the embedded member functions:
the bucket vectors, the piece map, the block counts, the two counters of filtered pieces
and the sequenced-download threshold. -/
structure piece_picker where
  m_piece_info : List (List Int)
  m_piece_map : List piece_pos
  m_blocks_per_piece : Int
  m_blocks_in_last_piece : Int
  m_num_filtered : Int
  m_num_have_filtered : Int
  m_sequenced_download_threshold : Int
deriving Repr

namespace piece_picker

/-- The enumerator `max_blocks_per_piece = 256`. -/
def max_blocks_per_piece : Nat := 256

/-- Embedding of `piece_picker::num_filtered() const`. -/
def num_filtered (pk : piece_picker) : Int := pk.m_num_filtered

/-- Embedding of `piece_picker::num_have_filtered() const`. -/
def num_have_filtered (pk : piece_picker) : Int := pk.m_num_have_filtered

/-- Embedding of `piece_picker::blocks_in_last_piece() const`. -/
def blocks_in_last_piece (pk : piece_picker) : Int := pk.m_blocks_in_last_piece

/-- Embedding of `piece_picker::blocks_in_piece(int index) const`; a failing assertion
is the result `none`. -/
def blocks_in_piece (pk : piece_picker) (index : Int) : Option Int :=
  if ¬ (index ≥ 0) then none
  else if ¬ (index < (pk.m_piece_map.length : Int)) then none
  else if index + 1 = (pk.m_piece_map.length : Int) then some pk.m_blocks_in_last_piece
  else some pk.m_blocks_per_piece

end piece_picker

/-! ## timestamp_history -/

/-- The enumerator `TIME_MASK = 0xffffffff` of `timestamp_history.cpp`. -/
def TIME_MASK : Nat := 0xffffffff

/-- The data members of `class timestamp_history` that `add_sample` reads and writes: the
array `m_history` of `history_size` samples, the base `m_base`, the cursor `m_index` and
the flag `m_initialized`. -/
structure timestamp_history where
  m_history : List Nat
  m_base : Nat
  m_index : Nat
  m_initialized : Bool
deriving DecidableEq, Repr

namespace timestamp_history

/-- The array `m_history` has `history_size` entries and the cursor `m_index` points
into it. -/
def well_formed (history_size : Nat) (h : timestamp_history) : Prop :=
  h.m_history.length = history_size ∧ h.m_index < history_size

instance (history_size : Nat) (h : timestamp_history) :
    Decidable (h.well_formed history_size) := by
  unfold well_formed; infer_instance

/-- Subtraction of two `boost::uint32_t` values: the difference modulo `2^32`. -/
def sub_uint32 (a b : Nat) : Nat := (((a : Int) - (b : Int)) % 2 ^ 32).toNat

/-- The loop `for (int i = 0; i < history_size; ++i) m_history[i] = sample;`. -/
def fill_history (history_size : Nat) (sample : Nat) (m_history : List Nat) : List Nat :=
  (List.range history_size).foldl (fun hist i => hist.set i sample) m_history

/-- The loop `for (int i = 0; i < history_size; ++i)
if (compare_less_wrap(m_history[i], m_base, TIME_MASK)) m_base = m_history[i];`. -/
def update_base (history_size : Nat) (compare_less_wrap : Nat → Nat → Nat → Bool)
    (m_history : List Nat) (m_base : Nat) : Nat :=
  (List.range history_size).foldl
    (fun base i =>
      if compare_less_wrap (m_history.getD i 0) base TIME_MASK then m_history.getD i 0
      else base)
    m_base

/-- Embedding of `timestamp_history::add_sample(boost::uint32_t sample, bool step)`:
the returned value and the state after the call. -/
def add_sample (history_size : Nat) (compare_less_wrap : Nat → Nat → Nat → Bool)
    (h : timestamp_history) (sample : Nat) (step : Bool) : Nat × timestamp_history :=
  let h1 : timestamp_history :=
    if ¬ h.m_initialized then
      { h with
        m_history := fill_history history_size sample h.m_history
        m_base := sample
        m_initialized := true }
    else h
  -- if sample is less than base, update the base and update the history entry
  let h2 : timestamp_history :=
    if compare_less_wrap sample h1.m_base TIME_MASK then
      { h1 with m_base := sample, m_history := h1.m_history.set h1.m_index sample }
    -- if sample is less than our history entry, update it
    else if compare_less_wrap sample (h1.m_history.getD h1.m_index 0) TIME_MASK then
      { h1 with m_history := h1.m_history.set h1.m_index sample }
    else h1
  let ret : Nat := sub_uint32 sample h2.m_base
  if step then
    let m_index : Nat := (h2.m_index + 1) % history_size
    let m_history : List Nat := h2.m_history.set m_index sample
    -- update m_base
    let m_base : Nat := update_base history_size compare_less_wrap m_history sample
    (ret, { h2 with m_index := m_index, m_history := m_history, m_base := m_base })
  else (ret, h2)

end timestamp_history

/-! ## Auxiliary facts -/

/-- The assertion `assert(have())` at the end of `set_have()` cannot fail. -/
theorem have_set_have (p : piece_pos) : p.set_have.have_ = true := by
  simp [piece_pos.set_have, piece_pos.have_]

/-- For `-2^30 < limit < 2^30` no operation of `priority` overflows a 32-bit `int`: the
32-bit evaluation and the exact one agree. -/
theorem priority_int32_exact (p : piece_pos) (limit : Int) (hp : p.in_range)
    (hlo : -(2 ^ 30) < limit) (hhi : limit < 2 ^ 30) :
    p.priority32 limit = p.priority limit := by
  obtain ⟨hpc, -, -⟩ := hp
  simp only [piece_pos.max_peer_count] at hpc
  have w : ∀ x : Int, -(2 ^ 31) ≤ x → x < 2 ^ 31 → piece_pos.wrap32 x = x := by
    intro x h1 h2
    unfold piece_pos.wrap32
    omega
  have hl : piece_pos.wrap32 (limit * 2) = limit * 2 := w _ (by omega) (by omega)
  have hc : piece_pos.wrap32 ((p.peer_count : Int) * 2) = (p.peer_count : Int) * 2 :=
    w _ (by omega) (by omega)
  unfold piece_pos.priority32 piece_pos.priority
  simp only [hl, hc]
  split_ifs <;> first
    | rfl
    | (split
       · apply w <;> omega
       · rfl
       · rfl)

/-- The setter `filtered(bool f)` leaves the piece filtered for either value of `f` and
changes no other field. -/
theorem set_filtered_fields (p : piece_pos) (f : Bool) :
    (p.set_filtered f).filtered = true
    ∧ (p.set_filtered f).peer_count = p.peer_count
    ∧ (p.set_filtered f).downloading = p.downloading
    ∧ (p.set_filtered f).index = p.index := by
  cases f <;> simp [piece_pos.set_filtered, piece_pos.filtered, piece_pos.filter_priority]

/-- A list of `n` entries that are all `a` stays one when an entry is overwritten by `a`. -/
theorem replicate_set_same (n : Nat) (a : Nat) (i : Nat) :
    (List.replicate n a).set i a = List.replicate n a := by
  rw [List.eq_replicate_iff]
  refine ⟨by simp, ?_⟩
  intro b hb
  rcases List.mem_or_eq_of_mem_set hb with h | h
  · exact List.eq_of_mem_replicate h
  · exact h

/-- The first `k` steps of the initialisation loop overwrite the first `k` entries of the
array and leave the other entries alone. -/
theorem fill_history_first_entries (sample : Nat) (l : List Nat) (k : Nat) (hk : k ≤ l.length) :
    timestamp_history.fill_history k sample l = List.replicate k sample ++ l.drop k := by
  unfold timestamp_history.fill_history
  induction k with
  | zero => simp
  | succ k ih =>
    rw [List.range_succ, List.foldl_append, ih (by omega)]
    simp only [List.foldl_cons, List.foldl_nil]
    apply List.ext_getElem?
    intro j
    rw [List.getElem?_set]
    simp only [List.getElem?_append, List.getElem?_replicate, List.length_replicate,
      List.length_append, List.length_drop, List.getElem?_drop]
    by_cases h1 : k = j
    · subst h1
      simp
      omega
    · by_cases h2 : j < k
      · simp [h1, h2, Nat.lt_succ_of_lt h2]
      · have h3 : ¬ j < k + 1 := by omega
        simp only [h1, h2, h3, if_false]
        congr 1
        omega

/-- The initialisation loop of `add_sample` sets every entry of the array to `sample`. -/
theorem fill_history_eq_replicate (history_size sample : Nat) (l : List Nat)
    (hlen : l.length = history_size) :
    timestamp_history.fill_history history_size sample l
      = List.replicate history_size sample := by
  rw [fill_history_first_entries sample l history_size (by omega), ← hlen]
  simp

/-- The loop that updates `m_base` leaves it unchanged when the array holds nothing but the
initial value of `m_base`. -/
theorem update_base_replicate (history_size : Nat)
    (compare_less_wrap : Nat → Nat → Nat → Bool) (n sample : Nat) (hn : history_size ≤ n) :
    timestamp_history.update_base history_size compare_less_wrap
      (List.replicate n sample) sample = sample := by
  unfold timestamp_history.update_base
  induction history_size with
  | zero => simp
  | succ k ih =>
    have hk : k < n := by omega
    rw [List.range_succ, List.foldl_append, ih (by omega)]
    simp [List.getElem?_replicate, hk]

/-- C1: `piece_block::operator<` is the strict lexicographic order on
`(piece_index, block_index)`: it is irreflexive and transitive, exactly one of `a < b`,
`a == b`, `b < a` holds, `operator==` is field-wise equality and `operator!=` is its
negation. -/
theorem piece_block_lexicographic_order (a b c : piece_block) :
    (a.operator_lt b = true ↔
      (a.piece_index < b.piece_index ∨
        (a.piece_index = b.piece_index ∧ a.block_index < b.block_index)))
    ∧ a.operator_lt a = false
    ∧ (a.operator_lt b = true → b.operator_lt c = true → a.operator_lt c = true)
    ∧ ((a.operator_lt b = true ∧ a.operator_eq b = false ∧ b.operator_lt a = false)
        ∨ (a.operator_lt b = false ∧ a.operator_eq b = true ∧ b.operator_lt a = false)
        ∨ (a.operator_lt b = false ∧ a.operator_eq b = false ∧ b.operator_lt a = true))
    ∧ (a.operator_eq b = true ↔
        (a.piece_index = b.piece_index ∧ a.block_index = b.block_index))
    ∧ (a.operator_eq b = true ↔ a = b)
    ∧ a.operator_ne b = !a.operator_eq b := by
  obtain ⟨ap, ab⟩ := a
  obtain ⟨bp, bb⟩ := b
  obtain ⟨cp, cb⟩ := c
  have key : ∀ x y : piece_block, x.operator_lt y = true ↔
      (x.piece_index < y.piece_index ∨
        (x.piece_index = y.piece_index ∧ x.block_index < y.block_index)) := by
    intro x y
    unfold piece_block.operator_lt
    split
    · simp_all
    · split
      · simp_all
      · simp only [Bool.false_eq_true, false_iff]
        omega
  have keyf : ∀ x y : piece_block, x.operator_lt y = false ↔
      ¬ (x.piece_index < y.piece_index ∨
        (x.piece_index = y.piece_index ∧ x.block_index < y.block_index)) := by
    intro x y
    rw [← key, Bool.not_eq_true]
  have keq : ∀ x y : piece_block, x.operator_eq y = true ↔
      (x.piece_index = y.piece_index ∧ x.block_index = y.block_index) := by
    intro x y
    simp [piece_block.operator_eq]
  have keqf : ∀ x y : piece_block, x.operator_eq y = false ↔
      ¬ (x.piece_index = y.piece_index ∧ x.block_index = y.block_index) := by
    intro x y
    rw [← keq, Bool.not_eq_true]
  refine ⟨key _ _, ?_, ?_, ?_, keq _ _, ?_, ?_⟩
  · rw [keyf]; simp
  · rw [key, key, key]; simp only; omega
  · rw [key, keyf, keqf, keyf, keq, key]; simp only; omega
  · rw [keq]; simp
  · simp only [piece_block.operator_ne, piece_block.operator_eq]
    by_cases h1 : ap = bp <;> by_cases h2 : ab = bb <;> simp [h1, h2]

/-- Witness for C1: `(1,2) < (1,3)`, `(1,3) < (2,0)`, hence `(1,2) < (2,0)`. -/
theorem piece_block_lexicographic_order_witness :
    piece_block.operator_lt ⟨1, 2⟩ ⟨1, 3⟩ = true
    ∧ piece_block.operator_lt ⟨1, 3⟩ ⟨2, 0⟩ = true
    ∧ piece_block.operator_lt ⟨1, 2⟩ ⟨2, 0⟩ = true :=
  ⟨by decide, by decide,
    (piece_block_lexicographic_order ⟨1, 2⟩ ⟨1, 3⟩ ⟨2, 0⟩).2.2.1 (by decide) (by decide)⟩

/-- C2 fails as stated: two pieces of priority level 3, neither filtered nor possessed,
with 0 and with 5 peers, have the different effective priorities 0 and 1. -/
theorem max_priority_peer_count_zero_counterexample :
    piece_pos.filtered ⟨0, false, 3, 0⟩ = false ∧ piece_pos.have_ ⟨0, false, 3, 0⟩ = false
    ∧ piece_pos.filtered ⟨5, false, 3, 0⟩ = false ∧ piece_pos.have_ ⟨5, false, 3, 0⟩ = false
    ∧ piece_pos.priority ⟨0, false, 3, 0⟩ 1 = 0
    ∧ piece_pos.priority ⟨5, false, 3, 0⟩ 1 = 1
    ∧ piece_pos.priority ⟨0, false, 3, 0⟩ 1 ≠ piece_pos.priority ⟨5, false, 3, 0⟩ 1 := by
  decide

/-- C2, amended: a piece of priority level 3 that is not possessed has effective priority 1
for every limit, either downloading flag and every peer count of at least 1, and effective
priority 0 when its peer count is 0. -/
theorem max_priority_ignores_positive_availability (p : piece_pos) (limit : Int)
    (hh : p.have_ = false) (h3 : p.piece_priority = 3) :
    (1 ≤ p.peer_count → p.priority limit = 1) ∧ (p.peer_count = 0 → p.priority limit = 0) := by
  unfold piece_pos.priority piece_pos.filtered piece_pos.filter_priority
  simp only [h3, hh]
  constructor
  · intro h
    split_ifs <;> simp_all <;> omega
  · intro h
    split_ifs <;> simp_all

/-- Witness for C2 (amended): a level 3 piece with 7 peers, being downloaded. -/
theorem max_priority_ignores_positive_availability_witness :
    piece_pos.have_ ⟨7, true, 3, 2⟩ = false ∧ piece_pos.priority ⟨7, true, 3, 2⟩ 4 = 1 :=
  ⟨by decide,
    (max_priority_ignores_positive_availability ⟨7, true, 3, 2⟩ 4 (by decide) rfl).1
      (by decide)⟩

/-- C7: a `piece_pos` that is filtered or possessed, in particular one on which
`set_have()` was called, has effective priority 0 for every limit, whatever its peer count
and downloading flag are. -/
theorem priority_zero_of_filtered_or_have (p : piece_pos) (limit : Int) :
    (p.filtered = true ∨ p.have_ = true → p.priority limit = 0)
    ∧ p.set_have.priority limit = 0 := by
  have main : ∀ q : piece_pos, q.filtered = true ∨ q.have_ = true → q.priority limit = 0 := by
    intro q h
    unfold piece_pos.priority
    rcases h with h | h <;> simp [h]
  exact ⟨main p, main _ (Or.inr (by simp [piece_pos.set_have, piece_pos.have_]))⟩

/-- Witness for C7: a filtered piece with 7 peers that is being downloaded. -/
theorem priority_zero_of_filtered_or_have_witness :
    piece_pos.filtered ⟨7, true, 0, 3⟩ = true ∧ piece_pos.priority ⟨7, true, 0, 3⟩ 5 = 0 :=
  ⟨by decide,
    (priority_zero_of_filtered_or_have ⟨7, true, 0, 3⟩ 5).1 (Or.inl (by decide))⟩

/-- C8: in a picker with `n ≥ 1` pieces and for `0 ≤ index < n`, `blocks_in_piece(index)`
returns `blocks_in_last_piece()` when `index = n - 1` and the configured blocks-per-piece
count otherwise. -/
theorem blocks_in_piece_spec (pk : piece_picker) (index : Int)
    (_hn : 1 ≤ pk.m_piece_map.length) (h0 : 0 ≤ index)
    (h1 : index < (pk.m_piece_map.length : Int)) :
    pk.blocks_in_piece index
      = some (if index = (pk.m_piece_map.length : Int) - 1 then pk.blocks_in_last_piece
              else pk.m_blocks_per_piece) := by
  unfold piece_picker.blocks_in_piece piece_picker.blocks_in_last_piece
  split_ifs <;> first
    | rfl
    | omega

/-- Witness for C8: three pieces of 16 blocks, the last of 5 blocks; the query at index 2. -/
theorem blocks_in_piece_spec_witness :
    piece_picker.blocks_in_piece
        ⟨[], [⟨0, false, 1, 0⟩, ⟨0, false, 1, 1⟩, ⟨0, false, 1, 2⟩], 16, 5, 0, 0, 100⟩ 2
      = some 5 :=
  blocks_in_piece_spec
    ⟨[], [⟨0, false, 1, 0⟩, ⟨0, false, 1, 1⟩, ⟨0, false, 1, 2⟩], 16, 5, 0, 0, 100⟩ 2
    (by decide) (by decide) (by decide)

/-- C12: for every piece that is neither filtered nor possessed and whose base urgency
(`peer_count` if downloading, else `2 * peer_count`) is 0 or 1, the effective priority
equals that base urgency for every limit and every priority level `1..3`. -/
theorem priority_passes_small_urgency (p : piece_pos) (limit : Int)
    (hf : p.filtered = false) (hh : p.have_ = false)
    (_h1 : 1 ≤ p.piece_priority) (_h3 : p.piece_priority ≤ 3)
    (hb : (if p.downloading then (p.peer_count : Int) else (p.peer_count : Int) * 2) ≤ 1) :
    p.priority limit
      = (if p.downloading then (p.peer_count : Int) else (p.peer_count : Int) * 2) := by
  unfold piece_pos.priority
  simp only [hf, hh, Bool.or_self, Bool.false_eq_true, if_false]
  rw [if_pos hb]

/-- Witness for C12: a level 2 piece with 1 peer, being downloaded, at limit 0. -/
theorem priority_passes_small_urgency_witness :
    piece_pos.priority ⟨1, true, 2, 0⟩ 0 = 1 :=
  priority_passes_small_urgency ⟨1, true, 2, 0⟩ 0 (by decide) (by decide) (by decide)
    (by decide) (by decide)

/-- C13: for every threshold of at least 1 and every piece that is neither filtered nor
possessed, the effective priority is 0 if and only if `peer_count` is 0, regardless of
priority level and downloading flag. -/
theorem priority_eq_zero_iff (limit : Int) (hl : 1 ≤ limit) (p : piece_pos)
    (hf : p.filtered = false) (hh : p.have_ = false) :
    p.priority limit = 0 ↔ p.peer_count = 0 := by
  unfold piece_pos.priority
  simp only [hf, hh, Bool.or_self, Bool.false_eq_true, if_false]
  split_ifs <;> first
    | omega
    | (split <;> omega)

/-- Witness for C13: threshold 1, a level 2 piece with 1 peer has effective priority 1,
and a level 3 piece without peers has effective priority 0. -/
theorem priority_eq_zero_iff_witness :
    piece_pos.priority ⟨1, false, 2, 0⟩ 1 ≠ 0 ∧ piece_pos.priority ⟨0, false, 3, 0⟩ 1 = 0 :=
  ⟨fun h =>
      absurd ((priority_eq_zero_iff 1 (by decide) ⟨1, false, 2, 0⟩ (by decide) (by decide)).1 h)
        (by decide),
    (priority_eq_zero_iff 1 (by decide) ⟨0, false, 3, 0⟩ (by decide) (by decide)).2 rfl⟩

/-- C14: for every threshold `t` of at least 1, two pieces that are neither filtered nor
possessed, have the same priority level and both have base urgency (`peer_count` if
downloading, else `2 * peer_count`) of at least `2 * t` have the same effective priority,
whatever their peer counts are. -/
theorem priority_eq_of_common (t : Int) (ht : 1 ≤ t) (p q : piece_pos)
    (hfp : p.filtered = false) (hhp : p.have_ = false)
    (hfq : q.filtered = false) (hhq : q.have_ = false)
    (hlev : p.piece_priority = q.piece_priority)
    (hbp : 2 * t ≤ (if p.downloading then (p.peer_count : Int) else (p.peer_count : Int) * 2))
    (hbq : 2 * t ≤ (if q.downloading then (q.peer_count : Int) else (q.peer_count : Int) * 2)) :
    p.priority t = q.priority t := by
  unfold piece_pos.priority
  simp only [hfp, hhp, hfq, hhq, Bool.or_self, Bool.false_eq_true, if_false, ← hlev]
  have e1 : ¬ (if p.downloading then (p.peer_count : Int) else (p.peer_count : Int) * 2) ≤ 1 := by
    omega
  have e2 : ¬ (if q.downloading then (q.peer_count : Int) else (q.peer_count : Int) * 2) ≤ 1 := by
    omega
  have c1 : (if p.downloading then (p.peer_count : Int) else (p.peer_count : Int) * 2) ≥ t * 2 := by
    omega
  have c2 : (if q.downloading then (q.peer_count : Int) else (q.peer_count : Int) * 2) ≥ t * 2 := by
    omega
  simp only [if_neg e1, if_neg e2, if_pos c1, if_pos c2]

/-- Witness for C14: threshold 2, level 2; a downloading piece with 4 peers and a
not-downloading piece with 900 peers both have effective priority 3. -/
theorem priority_eq_of_common_witness :
    piece_pos.priority ⟨4, true, 2, 0⟩ 2 = piece_pos.priority ⟨900, false, 2, 1⟩ 2 :=
  priority_eq_of_common 2 (by decide) ⟨4, true, 2, 0⟩ ⟨900, false, 2, 1⟩
    (by decide) (by decide) (by decide) (by decide) rfl (by decide) (by decide)

/-- C16: on an initialized history `add_sample` returns `(sample - b) mod 2^32`, where `b`
is `sample` if `compare_less_wrap(sample, m_base, 0xffffffff)` holds and the previous
`m_base` otherwise; it returns 0 when the sample compares less than the base, and the
returned value does not depend on the step flag. -/
theorem add_sample_return_value (history_size : Nat)
    (compare_less_wrap : Nat → Nat → Nat → Bool) (h : timestamp_history) (sample : Nat)
    (step : Bool) (hinit : h.m_initialized = true) :
    ((h.add_sample history_size compare_less_wrap sample step).1 : Int)
        = ((sample : Int)
            - ((if compare_less_wrap sample h.m_base 0xffffffff then sample else h.m_base : Nat)
                : Int)) % 2 ^ 32
    ∧ (compare_less_wrap sample h.m_base 0xffffffff = true →
        (h.add_sample history_size compare_less_wrap sample step).1 = 0)
    ∧ (h.add_sample history_size compare_less_wrap sample true).1
        = (h.add_sample history_size compare_less_wrap sample false).1 := by
  have hmod : ∀ x : Int, ((x % 2 ^ 32).toNat : Int) = x % 2 ^ 32 := by
    intro x
    exact Int.toNat_of_nonneg (Int.emod_nonneg _ (by norm_num))
  have hret : ∀ st : Bool, (h.add_sample history_size compare_less_wrap sample st).1
      = timestamp_history.sub_uint32 sample
          (if compare_less_wrap sample h.m_base 0xffffffff then sample else h.m_base) := by
    intro st
    unfold timestamp_history.add_sample
    simp only [hinit, not_true_eq_false, if_false, TIME_MASK]
    cases st <;> split_ifs <;> simp_all
  refine ⟨?_, ?_, ?_⟩
  · rw [hret]
    unfold timestamp_history.sub_uint32
    rw [hmod]
  · intro hc
    rw [hret, if_pos hc]
    simp [timestamp_history.sub_uint32]
  · rw [hret, hret]

/-- Witness for C16: base 10, sample 4 compared by `<` returns 0; without the comparison
holding (sample 12) the difference 2 is returned. -/
theorem add_sample_return_value_witness :
    timestamp_history.m_initialized ⟨[10, 11], 10, 0, true⟩ = true
    ∧ (timestamp_history.add_sample 2 (fun a b _ => decide (a < b)) ⟨[10, 11], 10, 0, true⟩ 4
        true).1 = 0 :=
  ⟨rfl,
    (add_sample_return_value 2 (fun a b _ => decide (a < b)) ⟨[10, 11], 10, 0, true⟩ 4 true
      rfl).2.1 (by decide)⟩

/-- C17: the first call of `add_sample` on a history that is not initialized returns 0 and
leaves the history initialized with `m_base` equal to `sample` and every history entry
equal to `sample`, for either step flag and any `compare_less_wrap`. -/
theorem add_sample_first_call (history_size : Nat)
    (compare_less_wrap : Nat → Nat → Nat → Bool) (h : timestamp_history) (sample : Nat)
    (step : Bool) (hwf : h.well_formed history_size) (hun : h.m_initialized = false) :
    (h.add_sample history_size compare_less_wrap sample step).1 = 0
    ∧ (h.add_sample history_size compare_less_wrap sample step).2.m_initialized = true
    ∧ (h.add_sample history_size compare_less_wrap sample step).2.m_base = sample
    ∧ (h.add_sample history_size compare_less_wrap sample step).2.m_history
        = List.replicate history_size sample
    ∧ ∀ x ∈ (h.add_sample history_size compare_less_wrap sample step).2.m_history,
        x = sample := by
  obtain ⟨hlen, -⟩ := hwf
  have hfill := fill_history_eq_replicate history_size sample h.m_history hlen
  have hbase := update_base_replicate history_size compare_less_wrap history_size sample
    (Nat.le_refl _)
  have hsub : timestamp_history.sub_uint32 sample sample = 0 := by
    simp [timestamp_history.sub_uint32]
  have hstate : (h.add_sample history_size compare_less_wrap sample step).1 = 0
      ∧ (h.add_sample history_size compare_less_wrap sample step).2
          = { m_history := List.replicate history_size sample
              m_base := sample
              m_index := if step then (h.m_index + 1) % history_size else h.m_index
              m_initialized := true } := by
    unfold timestamp_history.add_sample
    simp only [hun, Bool.false_eq_true, not_false_eq_true, if_true, hfill]
    cases step <;> split_ifs <;>
      simp [replicate_set_same, hbase, hsub]
  obtain ⟨h1, h2⟩ := hstate
  rw [h2]
  refine ⟨h1, rfl, rfl, rfl, ?_⟩
  intro x hx
  exact List.eq_of_mem_replicate hx

/-- Witness for C17: a fresh history of 3 entries; the first sample 42, with a step. -/
theorem add_sample_first_call_witness :
    (timestamp_history.add_sample 3 (fun a b _ => decide (a < b)) ⟨[0, 0, 0], 0, 0, false⟩ 42
        true).1 = 0
    ∧ (timestamp_history.add_sample 3 (fun a b _ => decide (a < b)) ⟨[0, 0, 0], 0, 0, false⟩ 42
        true).2.m_history = List.replicate 3 42 :=
  ⟨(add_sample_first_call 3 (fun a b _ => decide (a < b)) ⟨[0, 0, 0], 0, 0, false⟩ 42 true
      (by decide) rfl).1,
    (add_sample_first_call 3 (fun a b _ => decide (a < b)) ⟨[0, 0, 0], 0, 0, false⟩ 42 true
      (by decide) rfl).2.2.2.1⟩

/-- C18 fails on the code: the setter `filtered(bool f)` stores `filter_priority` (0) in
both branches, so after `filtered(false)` on a piece of priority level 1 the query
`filtered()` still returns true; `peer_count`, `downloading` and `index` are unchanged. -/
theorem set_filtered_false_still_filtered :
    piece_pos.filtered (piece_pos.set_filtered ⟨3, false, 1, 0⟩ false) = true
    ∧ piece_pos.set_filtered ⟨3, false, 1, 0⟩ false = ⟨3, false, 0, 0⟩
    ∧ piece_pos.filtered (piece_pos.set_filtered ⟨3, false, 1, 0⟩ true) = true := by
  decide

end libtorrent
